import Mathlib

/-!
Verification of the cross-chain bridge message core of the go-sdk
(`types/msg/msg-bridge.go`): the smart-chain address codec, the claim
records, the `Bind` and `TransferOut` messages, their validators and
their canonical sign-byte serialization.

The Go code is embedded shallowly: bytes are `Nat` values (< 256 where it
matters), byte slices are `List Nat`, strings are `List Char`, `int64` and
`int8` fields are `Int` (their comparisons with 0 coincide with the
machine-integer ones on in-range values), and fallible operations return
`Option` / product-with-error results.
-/

namespace BridgeMsg

/-! ## Hex codec

`HexDecode` and `HexAddress` live in this repository outside the bridge
file; they are modelled from the specification of the address codec:
lowercase hexadecimal text, an optional prefix accepted on decode, and a
40-character unprefixed rendering of 20 bytes.
-/

/-- The sixteen lowercase hex digit characters, in value order (the
`hextable` of Go's `encoding/hex`). -/
def hexDigits : List Char :=
  "0123456789abcdef".data

/-- The lowercase hex character of a digit value below 16. -/
def hexDigitChar (n : Nat) : Char :=
  hexDigits.getD n '*'

/-- Two lowercase hex characters rendering one byte, high nibble first. -/
def hexByteChars (b : Nat) : List Char :=
  [hexDigitChar (b / 16), hexDigitChar (b % 16)]

/-- Modelled from the spec: `ToHex` / `HexAddress` renders raw bytes as a
stable lowercase hex string, two characters per byte and no prefix
(the wire format of a 20-byte address is exactly 40 lowercase hex
characters). -/
def HexAddress (a : List Nat) : List Char :=
  a.foldr (fun b acc => hexByteChars b ++ acc) []

/-- The numeric value of one hex character (upper- or lowercase), if any. -/
def hexDigitVal (c : Char) : Option Nat :=
  List.lookup c
    [('0', 0), ('1', 1), ('2', 2), ('3', 3), ('4', 4), ('5', 5), ('6', 6),
     ('7', 7), ('8', 8), ('9', 9), ('a', 10), ('b', 11), ('c', 12),
     ('d', 13), ('e', 14), ('f', 15), ('A', 10), ('B', 11), ('C', 12),
     ('D', 13), ('E', 14), ('F', 15)]

/-- Decode a run of hex characters into bytes; fails on an odd length or a
character that is not a hex digit. -/
def hexDecodeCore : List Char → Option (List Nat)
  | [] => some []
  | [_] => none
  | c1 :: c2 :: rest => do
      let h ← hexDigitVal c1
      let l ← hexDigitVal c2
      let tail ← hexDecodeCore rest
      pure ((16 * h + l) :: tail)

/-- Drop an optional leading `0x` from hex text. -/
def strip0x (l : List Char) : List Char :=
  if l.take 2 = ['0', 'x'] then l.drop 2 else l

/-- Modelled from the spec: `FromHex` / `HexDecode` accepts lowercase hex
text, optionally `0x`-prefixed, and fails (with no partial result) on
malformed input — the spec fixes the constructor built on it to yield the
zero address on any decoding failure. -/
def HexDecode (s : List Char) : Option (List Nat) :=
  hexDecodeCore (strip0x s)

/-! ## SmartChainAddress -/

/-- Go's `[20]byte` address type `SmartChainAddress`; the operations below keep the
length at 20. -/
structure SmartChainAddress where
  bytes : List Nat
deriving DecidableEq, Repr

/-- The all-zero 20-byte address (the zero value of Go's `[20]byte`). -/
def zeroAddress : SmartChainAddress :=
  ⟨List.replicate 20 0⟩

/-- Source `SetBytes`: a slice longer than 20 bytes is cut to its
trailing 20 bytes, then `copy(addr[20-len(b):], b)` overwrites the trailing
`len b` positions of the receiver. -/
def SmartChainAddress.SetBytes (addr : SmartChainAddress) (b : List Nat) :
    SmartChainAddress :=
  let b := if b.length > 20 then b.drop (b.length - 20) else b
  ⟨addr.bytes.take (20 - b.length) ++ b⟩

/-- Source `NewSmartChainAddress`: decode the hex text, discard
any error, and `SetBytes` the result into a fresh (zero) address. -/
def NewSmartChainAddress (addr : List Char) : SmartChainAddress :=
  let hexBytes := (HexDecode addr).getD []
  zeroAddress.SetBytes hexBytes

/-- The big-endian numeric value of a byte string, as `big.Int.SetBytes`
computes it. -/
def bytesToNat (bs : List Nat) : Nat :=
  bs.foldl (fun acc b => acc * 256 + b) 0

/-- Source `IsEmpty`: the address bytes, read as a big-endian
`big.Int`, compare equal to zero. -/
def SmartChainAddress.IsEmpty (addr : SmartChainAddress) : Bool :=
  bytesToNat addr.bytes == 0

/-- The `String()` method of `SmartChainAddress`: `HexAddress(addr[:])`. -/
def SmartChainAddress.render (addr : SmartChainAddress) : List Char :=
  HexAddress addr.bytes

/-- Source `MarshalJSON`: the hex rendering wrapped in quotes,
never an error. -/
def SmartChainAddress.MarshalJSON (addr : SmartChainAddress) :
    Except String (List Char) :=
  .ok ('"' :: addr.render ++ ['"'])

/-- Source `UnmarshalJSON`: strip the first and last input byte
(the quotes), hex-decode the content, propagate a decode error leaving the
receiver untouched, otherwise `SetBytes` the decoded bytes. `none` models
the slice-bounds panic of `input[1:len(input)-1]` on input shorter than
two bytes. -/
def SmartChainAddress.UnmarshalJSON (addr : SmartChainAddress)
    (input : List Char) : Option (SmartChainAddress × Option String) :=
  if input.length < 2 then none
  else
    match HexDecode ((input.drop 1).dropLast) with
    | none => some (addr, some "invalid hex input")
    | some hexBytes => some (addr.SetBytes hexBytes, none)

/-! ## Native-chain types

`AccAddress`, `AddrLen` and `Coin` live in this repository's `common/types`
package, outside the bridge file; they are modelled from the spec. -/

/-- A native-chain account address: a raw byte slice. -/
abbrev AccAddress := List Nat

/-- Modelled from the spec: the chain's fixed account-address length
(`sdk.AddrLen`), 20 bytes. -/
def AddrLen : Nat := 20

/-- Modelled from the spec: a native-chain coin — a denomination and an
integer amount. -/
structure Coin where
  Denom : String
  Amount : Int
deriving DecidableEq, Repr

/-- Modelled from the spec: `Coin.IsPositive` — the amount is strictly
positive. -/
def Coin.IsPositive (c : Coin) : Bool :=
  decide (0 < c.Amount)

/-! ## Claim records -/

/-- Source `TransferInClaim`: a batch of inbound transfers. -/
structure TransferInClaim where
  ContractAddress : SmartChainAddress
  RefundAddresses : List SmartChainAddress
  ReceiverAddresses : List AccAddress
  Amounts : List Int
  Symbol : String
  RelayFee : Coin
  ExpireTime : Int
deriving DecidableEq, Repr

/-! ## JSON rendering (canonical sign bytes)

`GetSignBytes` is `json.Marshal` of the message struct.  Go's
`encoding/json` renders struct fields in declaration order under their
tags; the pieces below reproduce that for the two message types.  The
native account address marshals through its own repository code outside
this file; per the spec addresses render as JSON strings, modelled here
as the quoted hex of the raw bytes. -/

/-- One character of a Go JSON string literal: quotes, backslashes and
control characters escaped, `<`, `>`, `&` HTML-escaped as Go's encoder
does by default. -/
def jsonEscapeChar (c : Char) : List Char :=
  if c = '"' then ['\\', '"']
  else if c = '\\' then ['\\', '\\']
  else if c = '\n' then ['\\', 'n']
  else if c = '\r' then ['\\', 'r']
  else if c = '\t' then ['\\', 't']
  else if c.toNat < 32 ∨ c = '<' ∨ c = '>' ∨ c = '&' then
    '\\' :: 'u' :: '0' :: '0' ::
      hexDigitChar (c.toNat / 16) :: hexDigitChar (c.toNat % 16) :: []
  else [c]

/-- A Go JSON string literal: the escaped characters wrapped in quotes. -/
def jsonString (s : String) : List Char :=
  '"' :: s.data.foldr (fun c acc => jsonEscapeChar c ++ acc) [] ++ ['"']

/-- Decimal rendering of an integer as a JSON number. -/
def intToChars (i : Int) : List Char :=
  match i with
  | .ofNat n => Nat.toDigits 10 n
  | .negSucc n => '-' :: Nat.toDigits 10 (n + 1)

/-- Modelled from the spec: a native account address renders as a JSON
string (its repository marshaller is outside this file); the quoted hex
of the bytes stands in for the exact text. -/
def accAddressJSON (a : AccAddress) : List Char :=
  '"' :: HexAddress a ++ ['"']

/-- A `SmartChainAddress` field renders through `MarshalJSON`: the quoted
hex text. -/
def smartChainAddressJSON (a : SmartChainAddress) : List Char :=
  '"' :: a.render ++ ['"']

/-- A `Coin` field renders as an object with `denom` and `amount` keys. -/
def coinJSON (c : Coin) : List Char :=
  ['\x7b'] ++ jsonString "denom" ++ [':'] ++ jsonString c.Denom
    ++ [','] ++ jsonString "amount" ++ [':'] ++ intToChars c.Amount ++ ['\x7d']

/-! ## BindMsg -/

/-- Source `BindMsg`, fields in declaration order. -/
structure BindMsg where
  From : AccAddress
  Symbol : String
  Amount : Int
  ContractAddress : SmartChainAddress
  ContractDecimals : Int
  ExpireTime : Int
deriving DecidableEq, Repr

/-- Source `NewBindMsg` (the constructor populates `Amount`
before `Symbol`; the record value is the same). -/
def NewBindMsg (from_ : AccAddress) (symbol : String) (amount : Int)
    (contractAddress : SmartChainAddress) (contractDecimals : Int)
    (expireTime : Int) : BindMsg :=
  { From := from_
    Amount := amount
    Symbol := symbol
    ContractAddress := contractAddress
    ContractDecimals := contractDecimals
    ExpireTime := expireTime }

/-- Source `BindMsg.ValidateBasic`: the six checks in order,
`none` on success. -/
def BindMsg.ValidateBasic (msg : BindMsg) : Option String :=
  if msg.From.length ≠ AddrLen then
    some "address length should be 20"
  else if msg.Symbol.length = 0 then
    some "symbol should not be empty"
  else if msg.Amount ≤ 0 then
    some "amount should be larger than 0"
  else if msg.ContractAddress.IsEmpty then
    some "contract address should not be empty"
  else if msg.ContractDecimals < 0 then
    some "decimal should be no less than 0"
  else if msg.ExpireTime ≤ 0 then
    some "expire time should be larger than 0"
  else
    none

/-- Source `BindMsg.GetSignBytes`: `json.Marshal` of the struct —
fields in declaration order under their json tags. -/
def BindMsg.GetSignBytes (msg : BindMsg) : List Char :=
  ['\x7b'] ++ jsonString "from" ++ [':'] ++ accAddressJSON msg.From
    ++ [','] ++ jsonString "symbol" ++ [':'] ++ jsonString msg.Symbol
    ++ [','] ++ jsonString "amount" ++ [':'] ++ intToChars msg.Amount
    ++ [','] ++ jsonString "contract_address" ++ [':']
      ++ smartChainAddressJSON msg.ContractAddress
    ++ [','] ++ jsonString "contract_decimals" ++ [':']
      ++ intToChars msg.ContractDecimals
    ++ [','] ++ jsonString "expire_time" ++ [':'] ++ intToChars msg.ExpireTime
    ++ ['\x7d']

/-! ## TransferOutMsg -/

/-- Source `TransferOutMsg`, fields in declaration order. -/
structure TransferOutMsg where
  From : AccAddress
  To : SmartChainAddress
  Amount : Coin
  ExpireTime : Int
deriving DecidableEq, Repr

/-- Source `NewTransferOutMsg`. -/
def NewTransferOutMsg (from_ : AccAddress) (toAddr : SmartChainAddress)
    (amount : Coin) (expireTime : Int) : TransferOutMsg :=
  { From := from_
    To := toAddr
    Amount := amount
    ExpireTime := expireTime }

/-- Source `TransferOutMsg.ValidateBasic`: the four checks in
order, `none` on success. -/
def TransferOutMsg.ValidateBasic (msg : TransferOutMsg) : Option String :=
  if msg.From.length ≠ AddrLen then
    some "address length should be 20"
  else if msg.To.IsEmpty then
    some "to address should not be empty"
  else if !msg.Amount.IsPositive then
    some "amount should be positive"
  else if msg.ExpireTime ≤ 0 then
    some "expire time should be larger than 0"
  else
    none

/-- Source `TransferOutMsg.GetSignBytes`: `json.Marshal` of the
struct — fields in declaration order under their json tags. -/
def TransferOutMsg.GetSignBytes (msg : TransferOutMsg) : List Char :=
  ['\x7b'] ++ jsonString "from" ++ [':'] ++ accAddressJSON msg.From
    ++ [','] ++ jsonString "to" ++ [':'] ++ smartChainAddressJSON msg.To
    ++ [','] ++ jsonString "amount" ++ [':'] ++ coinJSON msg.Amount
    ++ [','] ++ jsonString "expire_time" ++ [':'] ++ intToChars msg.ExpireTime
    ++ ['\x7d']

/-! ## Positional transfer correspondence -/

/-- Zip three sequences positionally, stopping at the shortest. -/
def zip3 {α β γ : Type} : List α → List β → List γ → List (α × β × γ)
  | a :: as, b :: bs, c :: cs => (a, b, c) :: zip3 as bs cs
  | _, _, _ => []

/-- The individual transfers described by a `TransferInClaim`: the three
sequences read positionally. -/
def TransferInClaim.transfers (c : TransferInClaim) :
    List (SmartChainAddress × AccAddress × Int) :=
  zip3 c.RefundAddresses c.ReceiverAddresses c.Amounts

/-! ## Concrete sample values -/

/-- A well-formed native account address: twenty `1` bytes. -/
def sampleAcc : AccAddress := List.replicate 20 1

/-- A well-formed, non-zero smart-chain address. -/
def sampleAddr : SmartChainAddress := ⟨List.replicate 19 0 ++ [7]⟩

/-- A `TransferInClaim` whose three sequences have unequal lengths — a
value the record type admits. -/
def badTransferInClaim : TransferInClaim :=
  ⟨zeroAddress, [], [], [0], "BNB", ⟨"BNB", 1⟩, 1⟩

/-- A `TransferInClaim` whose three sequences have equal length one. -/
def goodTransferInClaim : TransferInClaim :=
  ⟨sampleAddr, [sampleAddr], [sampleAcc], [5], "BNB", ⟨"BNB", 1⟩, 1000⟩

/-- A fully valid `BindMsg`. -/
def sampleBindMsg : BindMsg := ⟨sampleAcc, "BNB", 100000000, sampleAddr, 8, 1000⟩

/-- A fully valid `TransferOutMsg`. -/
def sampleTransferOutMsg : TransferOutMsg := ⟨sampleAcc, sampleAddr, ⟨"BNB", 5⟩, 1000⟩

/-! ## Basic lemmas about the address codec -/

lemma foldl_mul_add_eq_zero_iff (l : List Nat) (acc : Nat) :
    l.foldl (fun acc b => acc * 256 + b) acc = 0 ↔ acc = 0 ∧ ∀ b ∈ l, b = 0 := by
  induction l generalizing acc with
  | nil => simp
  | cons b bs ih =>
    simp only [List.foldl_cons, List.mem_cons, ih]
    constructor
    · rintro ⟨h1, h2⟩
      refine ⟨by omega, fun x hx => ?_⟩
      rcases hx with rfl | hx
      · omega
      · exact h2 x hx
    · rintro ⟨rfl, h⟩
      have hb : b = 0 := h b (Or.inl rfl)
      exact ⟨by omega, fun x hx => h x (Or.inr hx)⟩

lemma bytesToNat_eq_zero_iff (bs : List Nat) :
    bytesToNat bs = 0 ↔ ∀ b ∈ bs, b = 0 := by
  unfold bytesToNat
  rw [foldl_mul_add_eq_zero_iff]
  simp

lemma IsEmpty_iff_all_zero (a : SmartChainAddress) :
    a.IsEmpty = true ↔ ∀ b ∈ a.bytes, b = 0 := by
  unfold SmartChainAddress.IsEmpty
  rw [beq_iff_eq, bytesToNat_eq_zero_iff]

lemma IsEmpty_iff_eq_zeroAddress (a : SmartChainAddress)
    (h : a.bytes.length = 20) : a.IsEmpty = true ↔ a = zeroAddress := by
  rw [IsEmpty_iff_all_zero]
  constructor
  · intro hall
    cases a with
    | mk bs =>
      have : bs = List.replicate 20 0 := List.eq_replicate_iff.mpr ⟨h, hall⟩
      simp [zeroAddress, this]
  · rintro rfl
    intro b hb
    exact List.eq_of_mem_replicate hb

lemma SetBytes_length (a : SmartChainAddress) (h : a.bytes.length = 20)
    (b : List Nat) : (a.SetBytes b).bytes.length = 20 := by
  unfold SmartChainAddress.SetBytes
  by_cases hb : b.length > 20 <;> simp [hb, h] <;> omega

lemma SetBytes_zero_full (bs : List Nat) (h : bs.length = 20) :
    zeroAddress.SetBytes bs = ⟨bs⟩ := by
  unfold SmartChainAddress.SetBytes
  simp [h]

lemma hexDigitVal_hexDigitChar : ∀ n, n < 16 →
    hexDigitVal (hexDigitChar n) = some n := by decide

lemma hexDigitChar_ne_x : ∀ n, n < 16 → hexDigitChar n ≠ 'x' := by decide

lemma hexDigitChar_mem_hexDigits : ∀ n, n < 16 → hexDigitChar n ∈ hexDigits := by
  decide

lemma HexAddress_nil : HexAddress [] = [] := rfl

lemma HexAddress_cons (b : Nat) (rest : List Nat) :
    HexAddress (b :: rest) =
      hexDigitChar (b / 16) :: hexDigitChar (b % 16) :: HexAddress rest := rfl

lemma hexDecodeCore_append_byte (b : Nat) (hb : b < 256) (rest : List Char) :
    hexDecodeCore (hexByteChars b ++ rest) =
      (hexDecodeCore rest).map (fun tail => b :: tail) := by
  have h1 : b / 16 < 16 := by omega
  have h2 : b % 16 < 16 := Nat.mod_lt _ (by norm_num)
  show hexDecodeCore (hexDigitChar (b / 16) :: hexDigitChar (b % 16) :: rest) = _
  simp only [hexDecodeCore, hexDigitVal_hexDigitChar _ h1,
    hexDigitVal_hexDigitChar _ h2, Option.bind_eq_bind, Option.some_bind]
  cases hexDecodeCore rest <;> simp <;> omega

lemma hexDecodeCore_HexAddress (bs : List Nat) (h : ∀ b ∈ bs, b < 256) :
    hexDecodeCore (HexAddress bs) = some bs := by
  induction bs with
  | nil => rfl
  | cons b rest ih =>
    rw [HexAddress_cons]
    have : hexDigitChar (b / 16) :: hexDigitChar (b % 16) :: HexAddress rest =
        hexByteChars b ++ HexAddress rest := rfl
    rw [this, hexDecodeCore_append_byte b (h b (by simp))]
    rw [ih (fun x hx => h x (by simp [hx]))]
    rfl

lemma strip0x_of_ne_x (c1 c2 : Char) (l : List Char) (h : c2 ≠ 'x') :
    strip0x (c1 :: c2 :: l) = c1 :: c2 :: l := by
  unfold strip0x
  have ht : (c1 :: c2 :: l).take 2 = [c1, c2] := rfl
  rw [ht]
  have hne : ([c1, c2] : List Char) ≠ ['0', 'x'] := by
    intro hc
    injection hc with h1 h2
    injection h2 with h2 _
    exact h h2
  simp [hne]

lemma strip0x_HexAddress (bs : List Nat) :
    strip0x (HexAddress bs) = HexAddress bs := by
  cases bs with
  | nil => rfl
  | cons b rest =>
    rw [HexAddress_cons]
    exact strip0x_of_ne_x _ _ _
      (hexDigitChar_ne_x _ (Nat.mod_lt _ (by norm_num)))

lemma HexDecode_HexAddress (bs : List Nat) (h : ∀ b ∈ bs, b < 256) :
    HexDecode (HexAddress bs) = some bs := by
  unfold HexDecode
  rw [strip0x_HexAddress]
  exact hexDecodeCore_HexAddress bs h

lemma newSmartChainAddress_length (s : List Char) :
    (NewSmartChainAddress s).bytes.length = 20 := by
  unfold NewSmartChainAddress
  exact SetBytes_length _ (by simp [zeroAddress]) _

lemma newSmartChainAddress_of_decode_fail (s : List Char)
    (h : HexDecode s = none) : NewSmartChainAddress s = zeroAddress := by
  unfold NewSmartChainAddress
  rw [h]
  decide

lemma newSmartChainAddress_roundtrip (a : SmartChainAddress)
    (hlen : a.bytes.length = 20) (hb : ∀ b ∈ a.bytes, b < 256) :
    NewSmartChainAddress (HexAddress a.bytes) = a := by
  unfold NewSmartChainAddress
  rw [HexDecode_HexAddress a.bytes hb]
  show zeroAddress.SetBytes a.bytes = a
  rw [SetBytes_zero_full a.bytes hlen]

lemma HexAddress_length (bs : List Nat) :
    (HexAddress bs).length = 2 * bs.length := by
  induction bs with
  | nil => rfl
  | cons b rest ih =>
    rw [HexAddress_cons]
    simp only [List.length_cons, ih, List.length_cons]
    omega

lemma HexAddress_mem_hexDigits (bs : List Nat) (h : ∀ b ∈ bs, b < 256) :
    ∀ c ∈ HexAddress bs, c ∈ hexDigits := by
  induction bs with
  | nil => simp [HexAddress_nil]
  | cons b rest ih =>
    rw [HexAddress_cons]
    intro c hc
    have hb : b < 256 := h b (by simp)
    rcases List.mem_cons.mp hc with rfl | hc
    · exact hexDigitChar_mem_hexDigits _ (by omega)
    · rcases List.mem_cons.mp hc with rfl | hc
      · exact hexDigitChar_mem_hexDigits _ (Nat.mod_lt _ (by norm_num))
      · exact ih (fun x hx => h x (by simp [hx])) c hc

/-! ## Positional zip lemmas -/

lemma zip3_length {α β γ : Type} (as : List α) (bs : List β) (cs : List γ)
    (h1 : as.length = bs.length) (h2 : bs.length = cs.length) :
    (zip3 as bs cs).length = as.length := by
  induction as generalizing bs cs with
  | nil =>
    cases bs with
    | nil =>
      cases cs with
      | nil => rfl
      | cons c cs => simp at h2
    | cons b bs => simp at h1
  | cons a as ih =>
    cases bs with
    | nil => simp at h1
    | cons b bs =>
      cases cs with
      | nil => simp at h2
      | cons c cs =>
        simp only [zip3, List.length_cons]
        rw [ih bs cs (by simpa using h1) (by simpa using h2)]

lemma zip3_getD {α β γ : Type} (da : α) (db : β) (dc : γ)
    (as : List α) (bs : List β) (cs : List γ) (i : Nat)
    (h1 : as.length = bs.length) (h2 : bs.length = cs.length)
    (hi : i < as.length) :
    (zip3 as bs cs).getD i (da, db, dc) =
      (as.getD i da, bs.getD i db, cs.getD i dc) := by
  induction as generalizing bs cs i with
  | nil => simp at hi
  | cons a as ih =>
    cases bs with
    | nil => simp at h1
    | cons b bs =>
      cases cs with
      | nil => simp at h2
      | cons c cs =>
        cases i with
        | zero => rfl
        | succ i =>
          simp only [zip3, List.getD_cons_succ]
          exact ih bs cs i (by simpa using h1) (by simpa using h2)
            (by simpa using hi)

/-! ## Claim theorems -/

/-- C1: `GetSignBytes` of `BindMsg` and of `TransferOutMsg` is a pure
function of the message's field values: two messages with equal field
values — however the fields were populated at construction — produce
identical byte sequences, and the constructors (which assign fields in a
different order than the struct declares them) build exactly the record
the serializer reads. -/
theorem c1_getSignBytes_pure :
    (∀ m1 m2 : BindMsg,
        m1.From = m2.From → m1.Symbol = m2.Symbol → m1.Amount = m2.Amount →
        m1.ContractAddress = m2.ContractAddress →
        m1.ContractDecimals = m2.ContractDecimals →
        m1.ExpireTime = m2.ExpireTime →
        m1.GetSignBytes = m2.GetSignBytes)
    ∧ (∀ m1 m2 : TransferOutMsg,
        m1.From = m2.From → m1.To = m2.To → m1.Amount = m2.Amount →
        m1.ExpireTime = m2.ExpireTime →
        m1.GetSignBytes = m2.GetSignBytes)
    ∧ (∀ f s a ca cd e, (NewBindMsg f s a ca cd e).GetSignBytes =
        BindMsg.GetSignBytes ⟨f, s, a, ca, cd, e⟩)
    ∧ (∀ f t a e, (NewTransferOutMsg f t a e).GetSignBytes =
        TransferOutMsg.GetSignBytes ⟨f, t, a, e⟩) := by
  refine ⟨?_, ?_, ?_, ?_⟩
  · intro m1 m2 h1 h2 h3 h4 h5 h6
    cases m1
    cases m2
    cases h1
    cases h2
    cases h3
    cases h4
    cases h5
    cases h6
    rfl
  · intro m1 m2 h1 h2 h3 h4
    cases m1
    cases m2
    cases h1
    cases h2
    cases h3
    cases h4
    rfl
  · intro f s a ca cd e
    rfl
  · intro f t a e
    rfl

/-- Witness for C1 at concrete messages. -/
theorem c1_getSignBytes_pure_witness :
    sampleBindMsg.GetSignBytes = sampleBindMsg.GetSignBytes
    ∧ sampleTransferOutMsg.GetSignBytes = sampleTransferOutMsg.GetSignBytes :=
  ⟨c1_getSignBytes_pure.1 sampleBindMsg sampleBindMsg rfl rfl rfl rfl rfl rfl,
   c1_getSignBytes_pure.2.1 sampleTransferOutMsg sampleTransferOutMsg
     rfl rfl rfl rfl⟩

/-- C2 as stated fails on the code: `SetBytes` of a short slice does not
produce the slice left-padded with zero bytes when the receiver already
holds non-zero bytes — on a receiver of twenty `255` bytes and input
`[1]`, the leading nineteen bytes stay `255`, they are not zeroed. -/
theorem c2_setBytes_counterexample :
    SmartChainAddress.SetBytes ⟨List.replicate 20 255⟩ [1] ≠
      ⟨List.replicate 19 0 ++ [1]⟩ := by decide

/-- C2 amended: `SetBytes` stores `b` right-aligned — an input longer than
20 bytes is cut to its trailing 20 bytes and replaces the whole address; a
shorter input overwrites the trailing `b.length` bytes while the leading
bytes keep the receiver's previous value, so on the fresh zero receiver
used at construction a short input comes out left-padded with zero bytes
to length 20. -/
theorem c2_setBytes_right_aligned (a : SmartChainAddress) (b : List Nat)
    (h : a.bytes.length = 20) :
    (b.length > 20 → a.SetBytes b = ⟨b.drop (b.length - 20)⟩)
    ∧ (b.length ≤ 20 →
        a.SetBytes b = ⟨a.bytes.take (20 - b.length) ++ b⟩)
    ∧ (b.length ≤ 20 →
        zeroAddress.SetBytes b = ⟨List.replicate (20 - b.length) 0 ++ b⟩) := by
  refine ⟨?_, ?_, ?_⟩
  · intro hb
    unfold SmartChainAddress.SetBytes
    have hlb : b.length > 20 := hb
    simp only [hlb, if_pos]
    have hlen : (b.drop (b.length - 20)).length = 20 := by
      simp [List.length_drop]
      omega
    rw [hlen]
    simp
  · intro hb
    unfold SmartChainAddress.SetBytes
    have : ¬ (b.length > 20) := by omega
    simp only [this, if_neg, if_false]
  · intro hb
    unfold SmartChainAddress.SetBytes
    have : ¬ (b.length > 20) := by omega
    simp only [this, if_neg, if_false]
    show (⟨(List.replicate 20 0).take (20 - b.length) ++ b⟩ : SmartChainAddress) = _
    rw [List.take_replicate]
    rw [Nat.min_eq_left (by omega : 20 - b.length ≤ 20)]

/-- Witness for C2's amended theorem at a concrete receiver and slice. -/
theorem c2_setBytes_right_aligned_witness :
    SmartChainAddress.SetBytes ⟨List.replicate 20 255⟩ [1] =
      ⟨(List.replicate 20 255 : List Nat).take 19 ++ [1]⟩ :=
  (c2_setBytes_right_aligned ⟨List.replicate 20 255⟩ [1] (by decide)).2.1
    (by decide)

/-- C3: `NewSmartChainAddress` never fails: it yields a 20-byte address on
every input, and on input the hex decoder rejects it yields the all-zero
address. -/
theorem c3_newSmartChainAddress_total (s : List Char) :
    (NewSmartChainAddress s).bytes.length = 20
    ∧ (HexDecode s = none → NewSmartChainAddress s = zeroAddress) :=
  ⟨newSmartChainAddress_length s, newSmartChainAddress_of_decode_fail s⟩

/-- Witness for C3 on a concrete malformed input. -/
theorem c3_newSmartChainAddress_total_witness :
    HexDecode ['z', 'z'] = none
    ∧ NewSmartChainAddress ['z', 'z'] = zeroAddress :=
  ⟨by decide, (c3_newSmartChainAddress_total ['z', 'z']).2 (by decide)⟩

/-- C4: `BindMsg.ValidateBasic` returns an error exactly when one of the
six field conditions fails: wrong sender length, empty symbol,
non-positive amount, all-zero contract address, negative decimals, or
non-positive expire time; it returns success when all fields are valid. -/
theorem c4_bindMsg_validateBasic_iff (m : BindMsg)
    (hca : m.ContractAddress.bytes.length = 20) :
    m.ValidateBasic.isSome = true ↔
      (m.From.length ≠ AddrLen ∨ m.Symbol.length = 0 ∨ m.Amount ≤ 0
        ∨ m.ContractAddress = zeroAddress ∨ m.ContractDecimals < 0
        ∨ m.ExpireTime ≤ 0) := by
  have hz := IsEmpty_iff_eq_zeroAddress m.ContractAddress hca
  unfold BindMsg.ValidateBasic
  split_ifs with h1 h2 h3 h4 h5 h6 <;> simp_all

/-- Witness for C4 at a concrete fully valid message. -/
theorem c4_bindMsg_validateBasic_iff_witness :
    sampleBindMsg.ValidateBasic.isSome = true ↔
      (sampleBindMsg.From.length ≠ AddrLen ∨ sampleBindMsg.Symbol.length = 0
        ∨ sampleBindMsg.Amount ≤ 0
        ∨ sampleBindMsg.ContractAddress = zeroAddress
        ∨ sampleBindMsg.ContractDecimals < 0
        ∨ sampleBindMsg.ExpireTime ≤ 0) :=
  c4_bindMsg_validateBasic_iff sampleBindMsg (by decide)

/-- C5: `TransferOutMsg.ValidateBasic` returns an error exactly when one
of the four field conditions fails: wrong sender length, all-zero
destination address, non-positive coin amount, or non-positive expire
time; it returns success when all fields are valid. -/
theorem c5_transferOutMsg_validateBasic_iff (m : TransferOutMsg)
    (hto : m.To.bytes.length = 20) :
    m.ValidateBasic.isSome = true ↔
      (m.From.length ≠ AddrLen ∨ m.To = zeroAddress
        ∨ m.Amount.Amount ≤ 0 ∨ m.ExpireTime ≤ 0) := by
  have hz := IsEmpty_iff_eq_zeroAddress m.To hto
  unfold TransferOutMsg.ValidateBasic
  split_ifs with h1 h2 h3 h4 <;>
    simp_all [Coin.IsPositive, Int.not_lt]

/-- Witness for C5 at a concrete fully valid message. -/
theorem c5_transferOutMsg_validateBasic_iff_witness :
    sampleTransferOutMsg.ValidateBasic.isSome = true ↔
      (sampleTransferOutMsg.From.length ≠ AddrLen
        ∨ sampleTransferOutMsg.To = zeroAddress
        ∨ sampleTransferOutMsg.Amount.Amount ≤ 0
        ∨ sampleTransferOutMsg.ExpireTime ≤ 0) :=
  c5_transferOutMsg_validateBasic_iff sampleTransferOutMsg (by decide)

/-- C6: re-encoding is stable: decoding the hex rendering of a 20-byte
address and rendering it again yields the identical text (in fact decoding
the rendering recovers the address itself). -/
theorem c6_render_roundtrip (a : SmartChainAddress)
    (hlen : a.bytes.length = 20) (hb : ∀ b ∈ a.bytes, b < 256) :
    (NewSmartChainAddress a.render).render = a.render
    ∧ NewSmartChainAddress a.render = a := by
  have h := newSmartChainAddress_roundtrip a hlen hb
  exact ⟨by rw [show NewSmartChainAddress a.render =
    NewSmartChainAddress (HexAddress a.bytes) from rfl, h], h⟩

/-- Witness for C6 at a concrete address. -/
theorem c6_render_roundtrip_witness :
    (NewSmartChainAddress sampleAddr.render).render = sampleAddr.render
    ∧ NewSmartChainAddress sampleAddr.render = sampleAddr :=
  c6_render_roundtrip sampleAddr (by decide) (by decide)

/-- C7: `IsEmpty` returns true exactly when every byte of the address is
zero. -/
theorem c7_isEmpty_iff (a : SmartChainAddress) :
    a.IsEmpty = true ↔ ∀ b ∈ a.bytes, b = 0 :=
  IsEmpty_iff_all_zero a

/-- C8: `MarshalJSON` never fails, and its output is exactly the hex
rendering of the address embedded as a JSON string; for a well-formed
20-byte address the rendering is 40 characters, all lowercase hex
digits. -/
theorem c8_marshalJSON_hex_string (a : SmartChainAddress)
    (hlen : a.bytes.length = 20) (hb : ∀ b ∈ a.bytes, b < 256) :
    a.MarshalJSON = Except.ok ('"' :: a.render ++ ['"'])
    ∧ a.render.length = 40
    ∧ ∀ c ∈ a.render, c ∈ hexDigits := by
  refine ⟨rfl, ?_, ?_⟩
  · show (HexAddress a.bytes).length = 40
    rw [HexAddress_length, hlen]
  · exact HexAddress_mem_hexDigits a.bytes hb

/-- Witness for C8 at a concrete address. -/
theorem c8_marshalJSON_hex_string_witness :
    sampleAddr.MarshalJSON = Except.ok ('"' :: sampleAddr.render ++ ['"'])
    ∧ sampleAddr.render.length = 40
    ∧ ∀ c ∈ sampleAddr.render, c ∈ hexDigits :=
  c8_marshalJSON_hex_string sampleAddr (by decide) (by decide)

/-- C9 as stated fails on the code: nothing in the `TransferInClaim`
record type ties the three sequence lengths together — a value whose
amount list is longer than its refund- and receiver-address lists is a
perfectly constructible `TransferInClaim`. -/
theorem c9_transferInClaim_counterexample :
    ¬ (badTransferInClaim.RefundAddresses.length =
         badTransferInClaim.ReceiverAddresses.length
       ∧ badTransferInClaim.ReceiverAddresses.length =
         badTransferInClaim.Amounts.length) := by decide

/-- C9 amended: equal length of the refund-address, receiver-address and
amount sequences is a well-formedness obligation on the claim value, not a
property the record type enforces; for every claim satisfying it, index
`i` across the three sequences describes one transfer — the `i`-th entry
of the positional transfer list is exactly the triple of the `i`-th
refund address, receiver address and amount. -/
theorem c9_transfers_positional (c : TransferInClaim)
    (h1 : c.RefundAddresses.length = c.ReceiverAddresses.length)
    (h2 : c.ReceiverAddresses.length = c.Amounts.length) :
    c.transfers.length = c.RefundAddresses.length
    ∧ ∀ i, i < c.transfers.length →
        c.transfers.getD i (zeroAddress, [], 0) =
          (c.RefundAddresses.getD i zeroAddress,
           c.ReceiverAddresses.getD i [],
           c.Amounts.getD i 0) := by
  have hl := zip3_length c.RefundAddresses c.ReceiverAddresses c.Amounts h1 h2
  refine ⟨hl, ?_⟩
  intro i hi
  exact zip3_getD zeroAddress [] 0 _ _ _ i h1 h2 (by rw [← hl]; exact hi)

/-- Witness for C9's amended theorem at a concrete well-formed claim. -/
theorem c9_transfers_positional_witness :
    goodTransferInClaim.transfers.length =
      goodTransferInClaim.RefundAddresses.length
    ∧ ∀ i, i < goodTransferInClaim.transfers.length →
        goodTransferInClaim.transfers.getD i (zeroAddress, [], 0) =
          (goodTransferInClaim.RefundAddresses.getD i zeroAddress,
           goodTransferInClaim.ReceiverAddresses.getD i [],
           goodTransferInClaim.Amounts.getD i 0) :=
  c9_transfers_positional goodTransferInClaim (by decide) (by decide)

/-- C10: on quoted input, `UnmarshalJSON` returns an error exactly when
the quoted hex content fails to decode, leaving the receiver unchanged;
on decodable content it succeeds and stores the bytes via the `SetBytes`
right-alignment rule — while `NewSmartChainAddress` swallows the same
decoding failure into the all-zero address. -/
theorem c10_unmarshalJSON_error_handling (a : SmartChainAddress)
    (input : List Char) (hlen : 2 ≤ input.length) :
    (HexDecode ((input.drop 1).dropLast) = none →
        a.UnmarshalJSON input = some (a, some "invalid hex input")
        ∧ NewSmartChainAddress ((input.drop 1).dropLast) = zeroAddress)
    ∧ ∀ bs, HexDecode ((input.drop 1).dropLast) = some bs →
        a.UnmarshalJSON input = some (a.SetBytes bs, none) := by
  have hnl : ¬ (input.length < 2) := by omega
  unfold SmartChainAddress.UnmarshalJSON
  refine ⟨?_, ?_⟩
  · intro h
    rw [if_neg hnl, h]
    exact ⟨rfl, newSmartChainAddress_of_decode_fail _ h⟩
  · intro bs h
    rw [if_neg hnl, h]

/-- Witness for C10 at a concrete quoted, undecodable input. -/
theorem c10_unmarshalJSON_error_handling_witness :
    sampleAddr.UnmarshalJSON ['"', 'z', 'z', '"'] =
      some (sampleAddr, some "invalid hex input")
    ∧ NewSmartChainAddress (((['"', 'z', 'z', '"'] : List Char).drop 1).dropLast) =
        zeroAddress :=
  (c10_unmarshalJSON_error_handling sampleAddr ['"', 'z', 'z', '"']
    (by decide)).1 (by decide)

end BridgeMsg
